import Mathlib

/-
Verification of the cpp-introductory-examples teaching corpus.

Each C++ demonstration program is shallowly embedded as Lean definitions:
pure functions become Lean functions, mutable local state becomes explicit
state passing, machine-integer conversions are written with explicit
reduction modulo `2 ^ w`, and fallible operations return `Except`/`Option`.
-/

namespace CppExamples

/-! ## Definitions

### Ex13FunctionParameters/src/VoidFunctions.cpp -/

/-- `add` from VoidFunctions.cpp: takes two values as parameters and returns
their sum.  C++ `int` is embedded as `Int`; the demonstration inputs stay far
from the representable range. -/
def add (x y : Int) : Int := x + y

/-- `multiply` from VoidFunctions.cpp: takes two values as parameters and
returns their product. -/
def multiply (x y : Int) : Int := x * y

/-! ### Ex11FunctionReturnValues/src/Functions.cpp: console extraction -/

/-- One `std::cin >> input` extraction into a value-initialized `int`
(`int input{};`).  The console token is `some v` when it parses as an
integer and `none` when extraction fails; as of C++11 a failed extraction
copy-assigns the default value 0 to the object being extracted. -/
def extractInt : Option Int → Int
  | some v => v
  | none => 0

/-- `getValueFromUser` from Functions.cpp: prompts, value-initializes a
local `int`, performs exactly one extraction from the input stream, and
returns the extracted value together with the rest of the stream (no retry
loop exists in the source). -/
def getValueFromUser (stream : List (Option Int)) : Int × List (Option Int) :=
  match stream with
  | [] => (0, [])
  | tok :: rest => (extractInt tok, rest)

/-- The derived result printed by `main`
(`std::cout << num << " doubled is: " << num * 2`): the doubled value. -/
def printDouble (value : Int) : Int := value * 2

/-! ### ch16_containers_and_arrays/ex03_unsigned_length_problem: doSomethingNTimes -/

/-- Conversion of a C++ `int` argument to the parameter type
`unsigned short int`: the value is reduced modulo `2 ^ 16` (C++ defines
conversion to an unsigned type as reduction modulo 2^N).  `Int.emod` is
Euclidean, so the result lies in `[0, 65536)`. -/
def toUnsignedShort (a : Int) : Nat := (a % 65536).toNat

/-- The body of `doSomethingNTimes`'s loop
`for (int i = 0; i < n; i++) counter++;`: `i` runs from `0` while `i < n`,
incrementing `counter` once per iteration. -/
def runLoop (counter i n : Nat) : Nat :=
  if i < n then runLoop (counter + 1) (i + 1) n else counter
termination_by n - i
decreasing_by omega

/-- `doSomethingNTimes` from ex03_unsigned_length_problem/src/main.cpp:
starts `counter` at 0, runs the loop, and reports the final counter.
The `unsigned short int` parameter is the already-converted `n`. -/
def doSomethingNTimes (n : Nat) : Nat := runLoop 0 0 n

/-! ### std::vector model (vectors/ex01_vector_memory_layout and
ch16_containers_and_arrays/ex03_unsigned_length_problem)

The examples use libstdc++'s `std::vector<int>`: a growable sequence with a
length (`size()`) and a reserved capacity (`capacity()`). -/

/-- A growable sequence of ints: the stored elements and the reserved
capacity.  Construction and `push_back` below maintain `data.length ≤ cap`. -/
structure Vec where
  data : List Int
  cap : Nat

/-- `size()` of the vector. -/
def Vec.size (v : Vec) : Nat := v.data.length

/-- Constructing a `std::vector<int>` from an initializer list
(`std::vector<int>{2, 3, 5, 7, 11, 13, 17, 19}`, `std::vector prime{2, 3, 5, 7, 11}`):
the elements are copied in order and the reserved capacity equals the element
count. -/
def Vec.ofList (l : List Int) : Vec := ⟨l, l.length⟩

/-- libstdc++ growth policy for a one-element insertion at full capacity
(`_M_check_len(1)`): the new capacity is `size + max size 1`, i.e. double the
old size (or 1 from an empty vector). -/
def growCap (sz : Nat) : Nat := sz + max sz 1

/-- `push_back`: appends one element at the end; if the vector is below
capacity the storage is reused, otherwise it reallocates with the grown
capacity. -/
def Vec.push_back (v : Vec) (x : Int) : Vec :=
  if v.size < v.cap then ⟨v.data ++ [x], v.cap⟩
  else ⟨v.data ++ [x], growCap v.size⟩

/-- The out-of-range condition thrown by checked access
(`std::out_of_range`). -/
inductive CppExc where
  | out_of_range
deriving DecidableEq, Repr

/-- Checked element access `v.at(i)`: returns the element when `i` is in
bounds and raises `std::out_of_range` otherwise. -/
def Vec.vat (v : Vec) (i : Nat) : Except CppExc Int :=
  match v.data[i]? with
  | some x => Except.ok x
  | none => Except.error CppExc.out_of_range

/-- Unchecked subscript access `v[i]`: no bounds check is performed.  In
bounds it reads the element; out of bounds the read is undefined behavior and
simply returns whatever the surrounding memory `mem` holds at that offset. -/
def Vec.subscript (mem : Nat → Int) (v : Vec) (i : Nat) : Int :=
  if h : i < v.data.length then v.data.get ⟨i, h⟩ else mem i

/-- The `try { prime.at(9); } catch (const std::out_of_range &e) { ... }`
call site in ex03's `main`: a successful access prints the element; a thrown
out-of-range condition is caught and logged, the vector is left as it was,
and in both cases execution continues (`true`). -/
def atCallSite (v : Vec) (i : Nat) : List CppExc × Vec × Bool :=
  match v.vat i with
  | Except.ok _ => ([], v, true)
  | Except.error e => ([e], v, true)

/-! ### Mutable-lambda copy semantics (src/unnamed/part_005, "Issues Making
Copies of Mutable Lambdas")

`count` is `[i]() mutable { std::cout << ++i << '\n'; }` with `int i{0}`:
a functor object whose data member is its by-value copy of `i`.  Copying the
functor (`auto otherCount{count};`) copies that data member in place. -/

/-- One invocation of the `count` functor: increments the member counter and
prints the incremented value.  Returns (new member state, printed value). -/
def countInvoke (i : Nat) : Nat × Nat := (i + 1, i + 1)

/-- The state of the original functor and of its copy after
`auto otherCount{count};`: each object owns its own `i` member. -/
structure TwoCounters where
  orig : Nat
  copy : Nat
deriving DecidableEq, Repr

/-- Invoking the original functor after the copy was taken: only the
original's member changes. -/
def invokeOrig (t : TwoCounters) : TwoCounters × Nat :=
  (⟨(countInvoke t.orig).1, t.copy⟩, (countInvoke t.orig).2)

/-- Invoking the copied functor: only the copy's member changes. -/
def invokeCopy (t : TwoCounters) : TwoCounters × Nat :=
  (⟨t.orig, (countInvoke t.copy).1⟩, (countInvoke t.copy).2)

/-- Running an arbitrary interleaving of invocations after the copy:
`true` selects the original, `false` the copy. -/
def runSeq : TwoCounters → List Bool → TwoCounters
  | t, [] => t
  | t, b :: rest => runSeq (if b then (invokeOrig t).1 else (invokeCopy t).1) rest

/-- The demonstration in part_005's `main`: `int i{0}`; `count()`; copy to
`otherCount`; `count()`; `otherCount()`.  Returns the printed values in
order. -/
def lambdaCopyDemo : List Nat :=
  let s0 := 0
  let (s1, out1) := countInvoke s0
  let t0 : TwoCounters := ⟨s1, s1⟩
  let (t1, out2) := invokeOrig t0
  let (_, out3) := invokeCopy t1
  [out1, out2, out3]

/-! ### Reference captures (ch20 ex07a_lambda_captures and part_005's
std::ref example)

`throwBanana` is `[&bananas]() { --bananas; ... }`: the closure holds a
reference to the single outer variable, so every copy of the closure is
just another alias of the same counter. -/

/-- One invocation of `throwBanana` through any copy of the closure: every
copy carries the same reference, so the identity of the copy (`copyId`) is
immaterial and the single shared counter is decremented. -/
def throwBananaCopy (copyId : Nat) (bananas : Int) : Int := bananas - 1

/-- Invoking a sequence of copies (identified by their ids) one after the
other on the shared counter. -/
def throwBananaSeq (bananas : Int) : List Nat → Int
  | [] => bananas
  | id :: rest => throwBananaSeq (throwBananaCopy id bananas) rest

/-- One invocation of `count4` (`[m]() mutable { std::cout << ++m; }`)
through `std::ref(count4)`: `myInvoke(std::ref(count4))` copies only the
reference wrapper, so the call acts on the single `count4` object's member.
Returns (new member state, printed value). -/
def count4Invoke (m : Nat) : Nat × Nat := (m + 1, m + 1)

/-- The std::ref demonstration in part_005's `main`: `int m{0}`, then three
`myInvoke(std::ref(count4))` calls sharing the one `count4` object.  Returns
the printed values in order. -/
def count4Demo : List Nat :=
  let (s1, o1) := count4Invoke 0
  let (s2, o2) := count4Invoke s1
  let (_, o3) := count4Invoke s2
  [o1, o2, o3]

/-! ### ch20 ex07a_lambda_captures: throwShell (mutable by-value capture) -/

/-- The stack frame of ex07a's `main` around `throwShell`: the outer
variable `shells` and the closure's by-value member copy (the functor's
`shells` data member, initialized from the outer variable at capture). -/
structure ShellFrame where
  shells : Int
  captured : Int
deriving DecidableEq, Repr

/-- The frame right after `auto throwShell{[shells]() mutable {...}};` with
`int shells{3}`. -/
def mkShellFrame : ShellFrame := ⟨3, 3⟩

/-- One call `throwShell()`: decrements the closure's member copy and prints
it; the outer variable is not touched.  Returns (new frame, printed count). -/
def throwShell (f : ShellFrame) : ShellFrame × Int :=
  (⟨f.shells, f.captured - 1⟩, f.captured - 1)

/-- `n` successive calls of `throwShell()`. -/
def throwShellN : ShellFrame → Nat → ShellFrame
  | f, 0 => f
  | f, n + 1 => throwShellN (throwShell f).1 n

/-! ### crashes_and_undefined_behavior/ex02_out_of_memory: eat_stack -/

/-- `eat_stack` from ex02's stack-overflow demonstration, run with an
explicit bound `fuel` on the remaining execution-stack depth.  Each
activation increments and prints `g_counter` (`std::cout << ++g_counter`),
then recurses whenever `g_counter > 0`.  `some c` would mean a normal
return with final counter `c`; `none` means the stack bound was exceeded
before any return. -/
def eat_stack : Nat → Nat → Option Nat
  | 0, _ => none
  | fuel + 1, c =>
      let c' := c + 1
      if 0 < c' then eat_stack fuel c' else some c'

/-- The values printed by `eat_stack` within the first `fuel` activations:
each activation prints the incremented counter before recursing. -/
def eat_stack_trace : Nat → Nat → List Nat
  | 0, _ => []
  | fuel + 1, c => (c + 1) :: eat_stack_trace fuel (c + 1)

/-! ### crashes_and_undefined_behavior/ex04_dangling_capture -/

/-- The heap cell behind `int *ptr{new int}`: its value and whether the
storage is still allocated. -/
structure HeapCell where
  valid : Bool
  val : Int
deriving DecidableEq, Repr

/-- `new int` followed by `*ptr = v`: a freshly allocated cell holding `v`
(the demonstration stores 7). -/
def newCell (v : Int) : HeapCell := ⟨true, v⟩

/-- `delete ptr`: the storage's lifetime ends; the cell is deallocated. -/
def deleteCell (c : HeapCell) : HeapCell := ⟨false, c.val⟩

/-- Reading through the reference captured by the lambda returned by
`printNumber` (`[&]() { std::cout << "Your number is " << n; }`): a read of
live storage yields its value; a read of deallocated storage yields no valid
value (undefined behavior). -/
def readCell (c : HeapCell) : Option Int := if c.valid then some c.val else none

/-- One call `sayNumber()`: the closure reads the captured storage and
prints; the heap is not modified by the call. -/
def invokeSayNumber (c : HeapCell) : HeapCell × Option Int := (c, readCell c)

/-- `n` successive calls of `sayNumber()`, collecting what each read. -/
def invokeRepeatedly : HeapCell → Nat → List (Option Int)
  | _, 0 => []
  | c, n + 1 =>
      let (c', r) := invokeSayNumber c
      r :: invokeRepeatedly c' n

/-! ## Theorems -/

theorem runLoop_eq_aux : ∀ d counter i n, n - i = d → runLoop counter i n = counter + d := by
  intro d
  induction d with
  | zero =>
    intro counter i n h
    rw [runLoop]
    have hlt : ¬ i < n := by omega
    simp [hlt]
  | succ k ih =>
    intro counter i n h
    rw [runLoop]
    have hlt : i < n := by omega
    have hrec := ih (counter + 1) (i + 1) n (by omega)
    simp [hlt, hrec]
    omega

theorem runLoop_eq (counter i n : Nat) : runLoop counter i n = counter + (n - i) :=
  runLoop_eq_aux (n - i) counter i n rfl

theorem push_back_size (v : Vec) (x : Int) : (v.push_back x).size = v.size + 1 := by
  unfold Vec.push_back Vec.size
  by_cases h : v.data.length < v.cap <;> simp [Vec.size, h]

theorem push_back_cap_ge (v : Vec) (x : Int) :
    (v.push_back x).size ≤ (v.push_back x).cap := by
  unfold Vec.push_back Vec.size
  by_cases h : v.data.length < v.cap <;> simp [h, growCap] <;> omega

theorem runSeq_orig (seq : List Bool) :
    ∀ t : TwoCounters, (runSeq t seq).orig = t.orig + seq.count true := by
  induction seq with
  | nil => intro t; simp [runSeq]
  | cons b rest ih =>
    intro t
    cases b <;> simp [runSeq, invokeOrig, invokeCopy, countInvoke, ih, List.count_cons] <;> omega

theorem runSeq_copy (seq : List Bool) :
    ∀ t : TwoCounters, (runSeq t seq).copy = t.copy + seq.count false := by
  induction seq with
  | nil => intro t; simp [runSeq]
  | cons b rest ih =>
    intro t
    cases b <;> simp [runSeq, invokeOrig, invokeCopy, countInvoke, ih, List.count_cons] <;> omega

theorem throwBananaSeq_eq (ids : List Nat) :
    ∀ bananas : Int, throwBananaSeq bananas ids = bananas - ids.length := by
  induction ids with
  | nil => intro bananas; simp [throwBananaSeq]
  | cons id rest ih =>
    intro bananas
    simp [throwBananaSeq, throwBananaCopy, ih]
    omega

theorem throwShellN_shells (n : Nat) :
    ∀ f : ShellFrame, (throwShellN f n).shells = f.shells := by
  induction n with
  | zero => intro f; rfl
  | succ k ih => intro f; simp [throwShellN, throwShell, ih]

theorem throwShellN_captured (n : Nat) :
    ∀ f : ShellFrame, (throwShellN f n).captured = f.captured - n := by
  induction n with
  | zero => intro f; simp [throwShellN]
  | succ k ih =>
    intro f
    simp [throwShellN, throwShell, ih]
    omega

theorem eat_stack_none (fuel : Nat) : ∀ c : Nat, eat_stack fuel c = none := by
  induction fuel with
  | zero => intro c; rfl
  | succ k ih =>
    intro c
    simp [eat_stack, ih]

theorem eat_stack_trace_eq (fuel : Nat) :
    ∀ c : Nat, eat_stack_trace fuel c = List.range' (c + 1) fuel := by
  induction fuel with
  | zero => intro c; rfl
  | succ k ih =>
    intro c
    simp [eat_stack_trace, ih, List.range'_succ]

theorem invokeRepeatedly_dead (n : Nat) :
    ∀ c : HeapCell, c.valid = false → invokeRepeatedly c n = List.replicate n none := by
  induction n with
  | zero => intro c _; rfl
  | succ k ih =>
    intro c hc
    simp [invokeRepeatedly, invokeSayNumber, readCell, hc, ih c hc, List.replicate_succ]

/-! ### Claim theorems -/

/-- C1: constructing a vector of ints from an initializer list sets its
length to the number of elements; appending one element with `push_back`
increases the length by exactly 1; the capacity stays `≥` the new length;
and a `push_back` on a vector at full (positive) capacity doubles the
capacity.  In the spec's scenario, `{2,3,5,7}` appended with `21` has length
5 and capacity 8 = 2 · 4 ≥ 5. -/
theorem vector_push_back_growth (l : List Int) (x : Int) (v : Vec)
    (hfull : v.size = v.cap) (hpos : 0 < v.cap) :
    (Vec.ofList l).size = l.length ∧
    (v.push_back x).size = v.size + 1 ∧
    (∀ w : Vec, (w.push_back x).size ≤ (w.push_back x).cap) ∧
    (v.push_back x).cap = 2 * v.cap ∧
    ((Vec.ofList [2, 3, 5, 7]).push_back 21).size = 5 ∧
    ((Vec.ofList [2, 3, 5, 7]).push_back 21).cap = 8 := by
  refine ⟨rfl, push_back_size v x, fun w => push_back_cap_ge w x, ?_, by decide, by decide⟩
  unfold Vec.push_back
  have h : ¬ v.size < v.cap := by omega
  simp [h, growCap]
  unfold Vec.size at *
  omega

/-- Witness for `vector_push_back_growth` at the spec's scenario: the vector
`{2,3,5,7}` is at full capacity 4 > 0 before appending 21. -/
theorem vector_push_back_growth_witness :
    (Vec.ofList [2, 3, 5, 7]).size = (Vec.ofList [2, 3, 5, 7]).cap ∧
    0 < (Vec.ofList [2, 3, 5, 7]).cap ∧
    ((Vec.ofList [2, 3, 5, 7]).push_back 21).cap = 2 * (Vec.ofList [2, 3, 5, 7]).cap :=
  ⟨by decide, by decide,
    (vector_push_back_growth [2, 3, 5, 7] 21 (Vec.ofList [2, 3, 5, 7])
      (by decide) (by decide)).2.2.2.1⟩

/-- C2: for every vector `v` and every index `i ≥ v.size` (in particular
`i = v.size`), the checked access `v.at(i)` raises `std::out_of_range`; at
the call site that catches and logs it, execution continues and `v` is
unchanged; the unchecked subscript performs no bounds check and just reads
the surrounding memory.  Demonstration: `prime.at(9)` on the 5-element
vector `{2,3,5,7,11}` throws. -/
theorem checked_access_out_of_range (v : Vec) (i : Nat) (mem : Nat → Int)
    (h : v.size ≤ i) :
    v.vat i = Except.error CppExc.out_of_range ∧
    atCallSite v i = ([CppExc.out_of_range], v, true) ∧
    Vec.subscript mem v i = mem i ∧
    (Vec.ofList [2, 3, 5, 7, 11]).vat 9 = Except.error CppExc.out_of_range := by
  have hnone : v.data[i]? = none := by
    rw [List.getElem?_eq_none]
    exact h
  refine ⟨?_, ?_, ?_, rfl⟩
  · unfold Vec.vat
    rw [hnone]
  · unfold atCallSite Vec.vat
    rw [hnone]
  · unfold Vec.subscript
    have hlt : ¬ i < v.data.length := by
      have := h
      unfold Vec.size at this
      omega
    simp [hlt]

/-- Witness for `checked_access_out_of_range`: the demonstration's
`prime.at(9)` on the 5-element vector `{2,3,5,7,11}`, with zeroed
surrounding memory. -/
theorem checked_access_out_of_range_witness :
    (Vec.ofList [2, 3, 5, 7, 11]).size ≤ 9 ∧
    (Vec.ofList [2, 3, 5, 7, 11]).vat 9 = Except.error CppExc.out_of_range ∧
    atCallSite (Vec.ofList [2, 3, 5, 7, 11]) 9 =
      ([CppExc.out_of_range], Vec.ofList [2, 3, 5, 7, 11], true) :=
  ⟨by decide,
    (checked_access_out_of_range (Vec.ofList [2, 3, 5, 7, 11]) 9 (fun _ => 0)
      (by decide)).1,
    (checked_access_out_of_range (Vec.ofList [2, 3, 5, 7, 11]) 9 (fun _ => 0)
      (by decide)).2.1⟩

/-- C3: a closure capturing an integer counter by value, invoked once and
then copied, yields independently incrementing counters that both start
from the counter's value at copy time: the demonstration prints 1, 2, 2,
and after the copy any interleaving of invocations leaves the original's
counter at the copy-time value plus its own invocation count, and likewise
for the copy. -/
theorem value_capture_copy_independent :
    lambdaCopyDemo = [1, 2, 2] ∧
    ∀ (v : Nat) (seq : List Bool),
      (runSeq ⟨v, v⟩ seq).orig = v + seq.count true ∧
      (runSeq ⟨v, v⟩ seq).copy = v + seq.count false :=
  ⟨rfl, fun v seq => ⟨runSeq_orig seq ⟨v, v⟩, runSeq_copy seq ⟨v, v⟩⟩⟩

/-- C4: a closure capturing a counter by reference (or a by-value closure
passed through `std::ref` so every copy aliases the one closure object)
mutates a single shared counter through every copy: two invocations of
`throwBanana` leave the outer `bananas` at 1, any sequence of invocations
through arbitrary copies decrements the one shared counter once per call,
and three `std::ref`-wrapped invocations of `count4` print 1, 2, 3. -/
theorem reference_capture_shared_counter :
    throwBananaSeq 3 [0, 1] = 1 ∧
    (∀ ids : List Nat, throwBananaSeq 3 ids = 3 - (ids.length : Int)) ∧
    count4Demo = [1, 2, 3] :=
  ⟨rfl, fun ids => throwBananaSeq_eq ids 3, rfl⟩

/-- C5: `add(2,3)` returns 5 and `multiply(2,3)` returns 6 (the sum
demonstration outputs 5 and the product demonstration outputs 6), and for
every pair of ints, `add` returns their sum and `multiply` their product. -/
theorem add_multiply_values :
    add 2 3 = 5 ∧ multiply 2 3 = 6 ∧
    (∀ x y : Int, add x y = x + y) ∧ (∀ x y : Int, multiply x y = x * y) :=
  ⟨rfl, rfl, fun _ _ => rfl, fun _ _ => rfl⟩

/-- C6: when extraction of an integer fails (malformed console input),
`getValueFromUser` performs no retry — it consumes exactly the one failed
token — and returns the default value 0 that C++11 extraction assigns to
the value-initialized local, and the derived doubled result is computed
from that 0. -/
theorem malformed_input_default_zero :
    ∀ rest : List (Option Int),
      getValueFromUser (none :: rest) = (0, rest) ∧
      printDouble (getValueFromUser (none :: rest)).1 = 0 :=
  fun _ => ⟨rfl, rfl⟩

/-- C7: `eat_stack` increments and prints the counter and recurses whenever
`g_counter > 0`; after the increment the counter is always positive, so for
every stack-depth bound the recursion exceeds it and the function never
returns normally, having printed the counts 1, 2, 3, … on the way down
(starting from `g_counter = 0`). -/
theorem eat_stack_never_returns :
    ∀ fuel c : Nat,
      eat_stack fuel c = none ∧ eat_stack_trace fuel 0 = List.range' 1 fuel :=
  fun fuel c => ⟨eat_stack_none fuel c, eat_stack_trace_eq fuel 0⟩

/-- C8: if the storage referenced by a closure's by-reference capture is
deallocated before the closure is invoked, every subsequent invocation reads
invalid memory: after `new int`, `*ptr = 7`, capturing `*ptr` by reference
in `sayNumber`, and `delete ptr`, each of the later calls (the
demonstration makes 4) reads the freed cell and obtains no valid value. -/
theorem dangling_capture_reads_invalid :
    ∀ (v : Int) (n : Nat),
      readCell (newCell v) = some v ∧
      invokeRepeatedly (deleteCell (newCell v)) n = List.replicate n none ∧
      invokeRepeatedly (deleteCell (newCell 7)) 4 = [none, none, none, none] :=
  fun v n =>
    ⟨rfl, invokeRepeatedly_dead n (deleteCell (newCell v)) rfl, rfl⟩

/-- C9: invoking the mutable lambda `throwShell`, which captured `shells`
by value, never modifies the outer variable: after any number of
invocations the outer `shells` still holds 3, while the closure's own copy
has been decremented once per call. -/
theorem value_capture_outer_unchanged :
    ∀ n : Nat,
      (throwShellN mkShellFrame n).shells = 3 ∧
      (throwShellN mkShellFrame n).captured = 3 - (n : Int) :=
  fun n => ⟨throwShellN_shells n mkShellFrame, throwShellN_captured n mkShellFrame⟩

/-- C10: calling `doSomethingNTimes` with argument `-1` converts the
argument to `unsigned short int` modulo `2 ^ 16`, yielding `n = 65535`, so
the loop body executes exactly 65535 times and the reported count is 65535;
in general, for every int argument `a`, the loop body executes `a mod 2^16`
times (the counter counts one increment per body execution). -/
theorem unsigned_short_loop_count :
    toUnsignedShort (-1) = 65535 ∧
    doSomethingNTimes (toUnsignedShort (-1)) = 65535 ∧
    ∀ a : Int, doSomethingNTimes (toUnsignedShort a) = (a % 65536).toNat := by
  refine ⟨by decide, ?_, ?_⟩
  · show runLoop 0 0 (toUnsignedShort (-1)) = 65535
    rw [runLoop_eq]
    decide
  · intro a
    show runLoop 0 0 (toUnsignedShort a) = (a % 65536).toNat
    rw [runLoop_eq]
    simp [toUnsignedShort]

end CppExamples
